import Mathlib

/-!
Shallow embedding of the `data_profiler` type-detection pipeline
(`src/data_profiler/type_detector.py`, `src/data_profiler/steps/*.py`,
`src/data_profiler/schema_generator.py`).

Conventions of the embedding:
* a pandas DataFrame is a list of named columns; every step of the pipeline
  acts column-wise, so the pipeline is embedded as a per-column function
  mapped over the table;
* cell values are a tagged union (`Val`): missing (NaN/None/NaT/NA), Python
  str, Python int, Python float (modelled as a rational), Python bool, and
  datetime values (year, month, day, seconds-past-midnight);
* a column carries its pandas dtype (`Dtype`) next to its cells;
* numbers are modelled as rationals; `Series.round(2)` is modelled as
  round-half-to-even on the value scaled by 100 (numpy rounding);
* string parsing (`float`, `pd.to_numeric`, `pd.to_datetime`) is modelled by
  explicit parsers restricted to the literal shapes the program's data and
  tests exercise: decimal numerals with an optional sign and one optional
  point (no exponent/underscore/inf/nan forms), and dates in the
  `YYYY-MM-DD` and `DD/MM/YYYY` formats (month 1..12, day 1..31).
-/

/-- Whitespace test used to model Python `str.strip`. -/
def isWs (c : Char) : Bool :=
  c = ' ' || c = '\t' || c = '\n' || c = '\r'

/-- Model of Python `str.strip` on a character list. -/
def trimChars (l : List Char) : List Char :=
  ((l.dropWhile isWs).reverse.dropWhile isWs).reverse

/-- Does the second list occur at the head of the first list? -/
def listStarts : List Char → List Char → Bool
  | _, [] => true
  | [], _ :: _ => false
  | a :: s, b :: p => a = b && listStarts s p

/-- Does `p` occur as a contiguous sublist of `s`?  Models `in` on Python
strings and `Series.str.contains` with a literal pattern. -/
def listHasSub : List Char → List Char → Bool
  | [], p => p.isEmpty
  | s@(_ :: t), p => listStarts s p || listHasSub t p

/-- Substring test on strings. -/
def hasSubstr (s pat : String) : Bool :=
  listHasSub s.data pat.data

/-- Left-to-right, non-overlapping literal replacement (Python
`str.replace`), driven by a fuel argument bounded by the list length. -/
def chReplaceGo (pat rep : List Char) : ℕ → List Char → List Char
  | 0, s => s
  | _ + 1, [] => []
  | f + 1, s@(a :: t) =>
      if !pat.isEmpty && listStarts s pat then
        rep ++ chReplaceGo pat rep f (s.drop pat.length)
      else
        a :: chReplaceGo pat rep f t

/-- Model of `Series.str.replace(pat, rep, regex=False)` on one string. -/
def strReplace (s pat rep : String) : String :=
  ⟨chReplaceGo pat.data rep.data s.data.length s.data⟩

/-- Model of Python `str.lower` (ASCII data only in this program). -/
def strLower (s : String) : String :=
  ⟨s.data.map Char.toLower⟩

/-- Model of Python `str.strip`. -/
def strTrim (s : String) : String :=
  ⟨trimChars s.data⟩

/-- Model of `Series.str.slice(0, 10)` on one string. -/
def strTake10 (s : String) : String :=
  ⟨s.data.take 10⟩

/-- Numeric value of a decimal digit character. -/
def digitVal (c : Char) : ℕ := c.toNat - 48

/-- Value of a list of decimal digit characters. -/
def digitsVal (l : List Char) : ℕ :=
  l.foldl (fun a c => a * 10 + digitVal c) 0

/-- Decimal digit characters of a natural number (fuelled; the fuel `n + 1`
always suffices), least significant digit last, always non-empty. -/
def natDigs : ℕ → ℕ → List Char
  | 0, _ => []
  | f + 1, n =>
      if n < 10 then [Char.ofNat (48 + n)]
      else natDigs f (n / 10) ++ [Char.ofNat (48 + n % 10)]

/-- Decimal rendering of a natural number (Python `str` of an int ≥ 0). -/
def natRender (n : ℕ) : String :=
  ⟨natDigs (n + 1) n⟩

/-- Decimal rendering of an integer (Python `str` of an int). -/
def intRender (n : ℤ) : String :=
  (if n < 0 then "-" else "") ++ natRender n.natAbs

/-- Fuelled structural Euclid; `fgcd a a b` computes `Nat.gcd a b` (the
remainder chain shrinks strictly below the first argument, so fuel `a`
suffices and the fuel never runs out).  Written without well-founded
recursion so that the kernel can evaluate it. -/
def fgcd : ℕ → ℕ → ℕ → ℕ
  | 0, _, b => b
  | _ + 1, 0, b => b
  | f + 1, a + 1, b => fgcd f (b % (a + 1)) (a + 1)

/-- Greatest common divisor via `fgcd`. -/
def natGcd (a b : ℕ) : ℕ := fgcd a a b

/-- Exact rational numbers for the embedding: numerator and denominator,
kept in lowest terms with a positive denominator by the smart constructor
`Qmk`, so that structural equality is value equality.  (Python floats are
modelled exactly; every literal the program handles is a decimal
fraction.) -/
structure Q where
  num : ℤ
  den : ℕ
deriving DecidableEq, Repr

/-- Normalising constructor: `Qmk n d` is `n / d` in lowest terms.  A zero
denominator is out of the program's domain and maps to the junk value
`⟨0, 0⟩`. -/
def Qmk (n : ℤ) (d : ℕ) : Q :=
  if d = 0 then ⟨0, 0⟩
  else
    let g := natGcd n.natAbs d
    ⟨n / (g : ℤ), d / g⟩

/-- The rational a `Q` denotes. -/
def Q.toRat (q : Q) : ℚ := (q.num : ℚ) / (q.den : ℚ)

/-- `Q` from an integer. -/
def Q.ofInt (n : ℤ) : Q := ⟨n, 1⟩

/-- Negation (lowest terms are preserved). -/
def Q.neg (q : Q) : Q := ⟨-q.num, q.den⟩

/-- Order comparison by cross-multiplication (denominators produced by the
program are positive). -/
def Qlt (a b : Q) : Bool :=
  a.num * (b.den : ℤ) < b.num * (a.den : ℤ)

/-- Model of `Series.round(2)` on one exact value: round half to even at
two decimal places (numpy rounding), computed on integers. -/
def round2Q (q : Q) : Q :=
  let m := q.num * 100
  let d : ℤ := (q.den : ℤ)
  let f := Int.fdiv m d
  let r := m - f * d
  let c := if 2 * r < d then f else if d < 2 * r then f + 1
           else if f % 2 = 0 then f else f + 1
  Qmk c 100

/-- Fractional digits of `r / d` by long division, up to 17 digits (the way
`repr` of a Python float shows a terminating short expansion). -/
def fracDigs : ℕ → ℕ → ℕ → List Char
  | 0, _, _ => []
  | _ + 1, 0, _ => []
  | f + 1, r, d =>
      Char.ofNat (48 + r * 10 / d) :: fracDigs f (r * 10 % d) d

/-- Decimal rendering of a rational standing for a Python float
(`str(100.0) = "100.0"`, `str(10.5) = "10.5"`). -/
def floatRender (q : Q) : String :=
  let s := if q.num < 0 then "-" else ""
  let a := q.num.natAbs
  let d := q.den
  let frac := fracDigs 17 (a % d) d
  s ++ natRender (a / d) ++ "." ++ (if (a % d) = 0 then "0" else ⟨frac⟩)

/-- Two-digit zero-padded rendering for date components. -/
def pad2 (n : ℕ) : String :=
  if n < 10 then "0" ++ natRender n else natRender n

/-- Rendering of a datetime value (`str` of a pandas Timestamp, shape
`YYYY-MM-DD HH:MM:SS`). -/
def dtRender (y m d sec : ℕ) : String :=
  natRender y ++ "-" ++ pad2 m ++ "-" ++ pad2 d ++ " " ++
    pad2 (sec / 3600) ++ ":" ++ pad2 (sec % 3600 / 60) ++ ":" ++ pad2 (sec % 60)

/-- Cell values: the tagged union of everything a DataFrame cell holds in
this program.  `null` stands for NaN/None/NaT/NA alike. -/
inductive Val where
  | null
  | str (s : String)
  | int (n : ℤ)
  | float (q : Q)
  | bool (b : Bool)
  | dt (y m d sec : ℕ)
deriving DecidableEq, Repr

/-- Pandas dtypes that occur in the pipeline.  `int64np` is numpy `int64`
(what `pd.to_numeric` returns for all-integer input), `int64` the nullable
`Int64` produced by `astype("Int64")`, `string` covers
`string[pyarrow]`, `datetime` covers `datetime64[ns]`, `boolean` covers
`boolean[pyarrow]`, and `other` any dtype untouched by every step. -/
inductive Dtype where
  | object
  | float64
  | int64np
  | int64
  | string
  | category
  | datetime
  | boolean
  | other
deriving DecidableEq, Repr

/-- One DataFrame column: its dtype and its ordered cells. -/
structure Col where
  dtype : Dtype
  cells : List Val
deriving DecidableEq, Repr

/-- Is a cell missing? -/
def isNull : Val → Bool
  | .null => true
  | _ => false

/-- Is a cell a Python str? -/
def isStrCell : Val → Bool
  | .str _ => true
  | _ => false

/-- Count of non-null cells (`Series.notna().sum()`). -/
def countNN (l : List Val) : ℕ :=
  l.countP (fun v => !isNull v)

/-- Are all cells null (`Series.isnull().all()`)? -/
def allNullB (l : List Val) : Bool :=
  l.all isNull

/-- Model of Python `str(value)` / `Series.astype(str)` on one cell.  Pandas
stringifies missing values to a non-empty placeholder (`"nan"` for object
NaN, `"<NA>"` for arrow NA); the embedding uses `"nan"` uniformly — every
theorem below depends only on the placeholder being non-empty. -/
def toPyStr : Val → String
  | .null => "nan"
  | .str s => s
  | .int n => intRender n
  | .float q => floatRender q
  | .bool b => if b then "True" else "False"
  | .dt y m d sec => dtRender y m d sec

/-- Model of `Series.astype("string[pyarrow]")` on one cell: missing stays
missing, everything else becomes its `str(...)` text. -/
def toStrVal : Val → Val
  | .null => .null
  | v => .str (toPyStr v)

/-- Model of a pandas `.str` accessor applied with string function `f`:
string cells are transformed, every non-string cell becomes NaN. -/
def strAcc (f : String → String) : Val → Val
  | .str s => .str (f s)
  | _ => .null

/-- Numeric string parser shared by the models of Python `float(...)` and
`pd.to_numeric`: optional sign, decimal digits with at most one point.
The boolean is true when the literal carries a point (parsed as float),
false for a pure integer literal. -/
def parseNumCore (l : List Char) : Option (Bool × Q) :=
  let ip := l.takeWhile Char.isDigit
  let rest := l.dropWhile Char.isDigit
  match rest with
  | [] => if ip.isEmpty then none else some (false, Q.ofInt (digitsVal ip))
  | '.' :: fr =>
      if fr.all Char.isDigit && !(ip.isEmpty && fr.isEmpty) then
        some (true, Qmk (digitsVal ip * 10 ^ fr.length + digitsVal fr) (10 ^ fr.length))
      else none
  | _ => none

/-- Signed numeric parser on a trimmed string. -/
def parseNum (s : String) : Option (Bool × Q) :=
  match trimChars s.data with
  | '-' :: r => (parseNumCore r).map (fun p => (p.1, p.2.neg))
  | '+' :: r => parseNumCore r
  | r => parseNumCore r

/-- Model of Python `float(s)` (success value only). -/
def pyFloat (s : String) : Option Q :=
  (parseNum s).map (·.2)

/-- Date parser modelling `pd.to_datetime(..., errors="coerce")` restricted
to the `YYYY-MM-DD` and `DD/MM/YYYY` shapes this repository's data and
tests exercise; month 1..12 and day 1..31 (`"2024-13-01"` is rejected,
matching the repository's own test). -/
def parseDT10 (s : String) : Option (ℕ × ℕ × ℕ) :=
  match s.data with
  | [y1, y2, y3, y4, '-', m1, m2, '-', d1, d2] =>
      if [y1, y2, y3, y4, m1, m2, d1, d2].all Char.isDigit then
        let y := digitsVal [y1, y2, y3, y4]
        let m := digitsVal [m1, m2]
        let d := digitsVal [d1, d2]
        if 1 ≤ m && m ≤ 12 && 1 ≤ d && d ≤ 31 then some (y, m, d) else none
      else none
  | [d1, d2, '/', m1, m2, '/', y1, y2, y3, y4] =>
      if [d1, d2, m1, m2, y1, y2, y3, y4].all Char.isDigit then
        let y := digitsVal [y1, y2, y3, y4]
        let m := digitsVal [m1, m2]
        let d := digitsVal [d1, d2]
        if 1 ≤ m && m ≤ 12 && 1 ≤ d && d ≤ 31 then some (y, m, d) else none
      else none
  | _ => none

/-- The `TypeDetectorConfig` data the steps read (`context/Models.py`):
keyword lists and the two categorical thresholds. -/
structure Cfg where
  text_keywords : List String
  cardinality_threshold : Q
  unique_count_limit : ℕ
  boolean_true_values : List String
  boolean_false_values : List String
deriving Repr

/-! ## Pipeline steps (`TypeDetector`, `type_detector.py`) -/

/-- `TypeDetector._identify_empty_columns`: an all-null column is replaced
by an all-NA `string[pyarrow]` column of the same length (the cells, being
all null already, are unchanged). -/
def emptyStep (c : Col) : Col :=
  if allNullB c.cells then ⟨.string, c.cells⟩ else c

/-- `TypeDetector._is_forced_text`: a keyword occurs in the lowered
column name. -/
def forcedName (cfg : Cfg) (name : String) : Bool :=
  cfg.text_keywords.any (fun k => hasSubstr (strLower name) k)

/-- `TypeDetector._convert_forced_text_columns` on one column. -/
def forcedStep (cfg : Cfg) (name : String) (c : Col) : Col :=
  if forcedName cfg name then ⟨.string, c.cells.map toStrVal⟩ else c

/-- `TypeDetector._infer_decimal_separator`: on the first 1000 non-null
cells rendered with `astype(str)`, count the cells containing a comma and
the cells containing a point; the comma is the decimal separator only when
strictly more cells contain a comma. -/
def sepComma (cells : List Val) : Bool :=
  let sample := ((cells.filter (fun v => !isNull v)).map toPyStr).take 1000
  sample.countP (fun s => hasSubstr s ",") > sample.countP (fun s => hasSubstr s ".")

/-- The separator-normalisation the numeric step assigns to the column
before parsing: with a comma decimal separator, drop points then turn
commas into points; otherwise drop commas.  Applied through the `.str`
accessor, so every non-string cell becomes NaN. -/
def numTransform (comma : Bool) (v : Val) : Val :=
  if comma then strAcc (fun s => strReplace (strReplace s "." "") "," ".") v
  else strAcc (fun s => strReplace s "," "") v

/-- `pd.to_numeric(..., errors="raise")` on one cell: `none` is a raised
error; `some none` a missing result; `some (some (isFloat, q))` a parsed
number, tagged float when the literal carried a point. -/
def toNumericCell : Val → Option (Option (Bool × Q))
  | .null => some none
  | .str s => (parseNum s).map some
  | .int n => some (some (false, Q.ofInt n))
  | .float q => some (some (true, q))
  | .bool b => some (some (false, Q.ofInt (if b then 1 else 0)))
  | .dt _ _ _ _ => none

/-- `pd.to_numeric(..., errors="raise")` over a column; `none` when any
cell raises. -/
def toNumericList : List Val → Option (List (Option (Bool × Q)))
  | [] => some []
  | v :: l => do
      let r ← toNumericCell v
      let rs ← toNumericList l
      some (r :: rs)

/-- `TypeDetector._convert_numeric_columns` on one object column.  Note the
order in the source: the separator-normalised strings are assigned to the
DataFrame column first, and `pd.to_numeric` runs on the already-mutated
column, so a raised parse error leaves the mutated strings in place.  On
success the dtype is numpy `int64` when every literal was a pure integer
(no missing values), else `float64` rounded to 2 decimals. -/
def numericStep (c : Col) : Col :=
  if c.dtype = .object then
    let comma := sepComma c.cells
    let cells1 := c.cells.map (numTransform comma)
    match toNumericList cells1 with
    | none => ⟨.object, cells1⟩
    | some parsed =>
        if !cells1.isEmpty && parsed.all (fun o => o.elim false (fun r => !r.1)) then
          ⟨.int64np, parsed.map (fun o => o.elim Val.null (fun r => .int r.2.num))⟩
        else
          ⟨.float64, parsed.map (fun o => o.elim Val.null (fun r => .float (round2Q r.2)))⟩
  else c

/-- Can a cell of a float64 column pass the `% 1 == 0 | isnull` test of
`_convert_float_columns_to_int`? -/
def intableCell : Val → Bool
  | .null => true
  | .float q => q.den = 1
  | _ => false

/-- `astype("Int64")` on one cell of an all-integral float column. -/
def floatToIntCell : Val → Val
  | .float q => .int q.num
  | v => v

/-- `TypeDetector._convert_float_columns_to_int` on one column: a `float64`
column whose every cell is null or has zero fractional part becomes
nullable `Int64` with the same numeric values and the same nulls. -/
def floatToIntStep (c : Col) : Col :=
  if c.dtype = .float64 && c.cells.all intableCell then
    ⟨.int64, c.cells.map floatToIntCell⟩
  else c

/-- The date-candidate test of `_convert_date_columns`: some string cell
contains `/` or `-`, or the lowered name contains "fecha" or "date". -/
def dateLike (name : String) (cells : List Val) : Bool :=
  cells.any (fun v =>
    match v with
    | .str s => hasSubstr s "/" || hasSubstr s "-"
    | _ => false)
  || hasSubstr (strLower name) "fecha"
  || hasSubstr (strLower name) "date"

/-- The per-cell conversion of `_convert_date_columns`: slice to the first
10 characters (non-strings become NaN), null out cells containing the
sentinel `"0001"`, then coerce-parse; the time of day is always 0 because
only the 10-character date prefix survives the slice. -/
def dateConvCell (v : Val) : Val :=
  match strAcc strTake10 v with
  | .str s =>
      if hasSubstr s "0001" then .null
      else
        match parseDT10 s with
        | some (y, m, d) => .dt y m d 0
        | none => .null
  | _ => .null

/-- `TypeDetector._convert_date_columns` on one object column: convert when
the parsed non-null count is at least half of the original non-null count,
otherwise put back the untouched original column. -/
def dateStep (name : String) (c : Col) : Col :=
  if c.dtype = .object then
    if dateLike name c.cells then
      let conv := c.cells.map dateConvCell
      if 2 * countNN conv ≥ countNN c.cells then ⟨.datetime, conv⟩ else c
    else c
  else c

/-- Kind of one distinct value in `_has_mixed_types`: Python ints and
floats (bools included, `isinstance(True, int)` holds) are numeric, a str
is numeric exactly when `float(s)` succeeds, anything else is the third
kind. `0` numeric, `1` string, `2` other. -/
def mixKind : Val → ℕ
  | .int _ => 0
  | .float _ => 0
  | .bool _ => 0
  | .str s => if (pyFloat s).isSome then 0 else 1
  | _ => 2

/-- `_has_mixed_types`: more than one kind among the distinct non-null
values. -/
def hasMixedTypes (cells : List Val) : Bool :=
  let u := (cells.filter (fun v => !isNull v)).dedup
  (u.any (fun v => mixKind v = 0) && u.any (fun v => mixKind v = 1)) ||
  (u.any (fun v => mixKind v = 0) && u.any (fun v => mixKind v = 2)) ||
  (u.any (fun v => mixKind v = 1) && u.any (fun v => mixKind v = 2))

/-- Distinct non-null count of a column (`Series.nunique(dropna=True)`). -/
def nuniqueNN (cells : List Val) : ℕ :=
  ((cells.filter (fun v => !isNull v)).dedup).length

/-- Cardinality as `_convert_categorical_columns` computes it:
`nunique / len` when the column is non-empty, else `0`. -/
def cardinalityOf (cells : List Val) : Q :=
  if cells.length > 0 then Qmk (nuniqueNN cells) cells.length else Q.ofInt 0

/-- The cardinality/uniques gate of `_convert_categorical_columns`. -/
def catCriteria (cfg : Cfg) (cells : List Val) : Bool :=
  Qlt (cardinalityOf cells) cfg.cardinality_threshold &&
  decide (nuniqueNN cells ≤ cfg.unique_count_limit) &&
  decide (0 < nuniqueNN cells)

/-- Does the categorical step convert this column's cells? -/
def catConverts (cfg : Cfg) (cells : List Val) : Bool :=
  catCriteria cfg cells && !hasMixedTypes cells

/-- `TypeDetector._convert_categorical_columns` on one column: object and
string columns meeting the gate and not mixed become `category`, values
unchanged. -/
def catStep (cfg : Cfg) (c : Col) : Col :=
  if (c.dtype = .object || c.dtype = .string) && catConverts cfg c.cells then
    ⟨.category, c.cells⟩
  else c

/-- `TypeDetector._convert_object_columns_to_string` on one column. -/
def objToStrStep (c : Col) : Col :=
  if c.dtype = .object then ⟨.string, c.cells.map toStrVal⟩ else c

/-- `TypeDetector.run_detection` on one column: the ordered step sequence
empty → forced-text → numeric → float-to-int → date → categorical →
object-to-string.  Every step of the source acts column by column, so the
pipeline is this function mapped over the table. -/
def runCol (cfg : Cfg) (name : String) (c : Col) : Col :=
  objToStrStep (catStep cfg (dateStep name (floatToIntStep (numericStep
    (forcedStep cfg name (emptyStep c))))))

/-- `TypeDetector.run_detection` over the whole DataFrame. -/
def runDetection (cfg : Cfg) (t : List (String × Col)) : List (String × Col) :=
  t.map (fun p => (p.1, runCol cfg p.1 p.2))

/-! ## Boolean step (`steps/boolean.py`, not wired into `run_detection`) -/

/-- `BooleanConversionStep._is_potential_boolean`: exactly two distinct
non-null values whose trimmed lowered `str(...)` forms are all members of
`boolean_true_values ∪ boolean_false_values`. -/
def potentialBoolean (cfg : Cfg) (cells : List Val) : Bool :=
  let u := (cells.filter (fun v => !isNull v)).dedup
  u.length = 2 &&
  u.all (fun v =>
    (cfg.boolean_true_values ++ cfg.boolean_false_values).contains
      (strLower (strTrim (toPyStr v))))

/-- The `map_to_bool` lookup of `BooleanConversionStep.process`: lowered
false values override lowered true values (dict update order), unmapped
cells become missing.  Cells go through `astype(str)` first, so missing
cells render as `"nan"` and fall out of the map back to missing. -/
def boolMapCell (cfg : Cfg) (v : Val) : Val :=
  let s := strLower (strTrim (toPyStr v))
  if (cfg.boolean_false_values.map strLower).contains s then .bool false
  else if (cfg.boolean_true_values.map strLower).contains s then .bool true
  else .null

/-- `BooleanConversionStep.process` on one object/string column. -/
def booleanStep (cfg : Cfg) (c : Col) : Col :=
  if (c.dtype = .object || c.dtype = .string) && potentialBoolean cfg c.cells then
    ⟨.boolean, c.cells.map (boolMapCell cfg)⟩
  else c

/-! ## Schema generation (`schema_generator.py`) -/

/-- The `longitud` entry of `SchemaGenerator.generate_schema_dict`:
`df[column].astype(str).str.len().max()` — the maximum `str(...)` length
over all cells, nulls included (stringified to the non-empty
placeholder). -/
def longitud (c : Col) : ℕ :=
  (c.cells.map (fun v => (toPyStr v).length)).foldr max 0

/-- The per-column length map of `generate_schema_dict`. -/
def schemaLongitudes (t : List (String × Col)) : List (String × ℕ) :=
  t.map (fun p => (p.1, longitud p.2))

/-- Do all cells of a list hold either a missing value or a Python str?
(The shape every object column has after the numeric step's `.str`
accessor has run over it.) -/
def strOrNullB (cells : List Val) : Bool :=
  cells.all (fun v => isNull v || isStrCell v)

/-- Numeric content of a cell, used to state that a conversion step keeps
every value: missing cells carry no number, int and float cells carry their
exact value. -/
def valQnum : Val → Option Q
  | .int n => some (Q.ofInt n)
  | .float q => some q
  | _ => none

/-! ## Concrete configurations used by the closed theorems -/

/-- The configuration of the repository's test fixture
(`tests/test_type_detector.py`): keywords `codigo`/`identificacion`,
threshold 0.1, unique limit 50, and its boolean value lists. -/
def cfgT : Cfg :=
  ⟨["codigo", "identificacion"], Qmk 1 10, 50,
   ["true", "t", "1", "yes", "si", "s"], ["false", "f", "0", "no", "n"]⟩

/-- A configuration with a wide cardinality threshold (0.5), otherwise like
the test fixture. -/
def cfgW : Cfg :=
  ⟨["codigo", "identificacion"], Qmk 1 2, 50,
   ["true", "t", "1", "yes", "si", "s"], ["false", "f", "0", "no", "n"]⟩

/-- Retyping applied by a second pipeline run: a column left entirely null
is (re)declared `string[pyarrow]` by the empty-column step; every other
column is untouched. -/
def retypeAllNull (c : Col) : Col :=
  if allNullB c.cells then ⟨.string, c.cells⟩ else c

/-- Invariant of every column the pipeline outputs, strong enough to show
the second run changes nothing beyond `retypeAllNull`: the output is never
`object`; a forced-text name yields a string or category column of
str/null cells whose categorical verdict is settled; an unforced string
output already failed the categorical gate; a float64 output already
failed the integer test. -/
def PipeInv (cfg : Cfg) (name : String) (c : Col) : Prop :=
  c.dtype ≠ .object ∧
  (forcedName cfg name = true →
    (c.dtype = .string ∧ strOrNullB c.cells = true ∧
      catConverts cfg c.cells = false) ∨
    (c.dtype = .category ∧ strOrNullB c.cells = true ∧
      catConverts cfg c.cells = true)) ∧
  (forcedName cfg name = false → c.dtype = .string →
    catConverts cfg c.cells = false) ∧
  (c.dtype = .float64 → c.cells.all intableCell = false)

/-! ## Auxiliary lemmas about cells and single steps -/

theorem aux_toStrVal_shape (v : Val) :
    (isNull (toStrVal v) || isStrCell (toStrVal v)) = true := by
  cases v <;> rfl

theorem aux_strOrNull_map_toStrVal (l : List Val) :
    strOrNullB (l.map toStrVal) = true := by
  simp only [strOrNullB, List.all_map, List.all_eq_true]
  intro v _
  exact aux_toStrVal_shape v

theorem aux_toStrVal_id (v : Val) (h : (isNull v || isStrCell v) = true) :
    toStrVal v = v := by
  cases v <;> simp_all [toStrVal, toPyStr, isNull, isStrCell]

theorem aux_map_toStrVal_id (l : List Val) (h : strOrNullB l = true) :
    l.map toStrVal = l := by
  simp only [strOrNullB, List.all_eq_true] at h
  conv_rhs => rw [← List.map_id l]
  exact List.map_congr_left fun v hv => aux_toStrVal_id v (h v hv)

theorem aux_allNull_strOrNull (l : List Val) (h : allNullB l = true) :
    strOrNullB l = true := by
  simp only [allNullB, List.all_eq_true] at h
  simp only [strOrNullB, List.all_eq_true]
  intro v hv
  simp [h v hv]

theorem aux_allNull_nunique (l : List Val) (h : allNullB l = true) :
    nuniqueNN l = 0 := by
  simp only [allNullB, List.all_eq_true] at h
  have hf : l.filter (fun v => !isNull v) = [] := by
    simp only [List.filter_eq_nil_iff]
    intro v hv
    simp [h v hv]
  simp [nuniqueNN, hf]

theorem aux_strAcc_shape (f : String → String) (v : Val) :
    (isNull (strAcc f v) || isStrCell (strAcc f v)) = true := by
  cases v <;> rfl

theorem aux_strOrNull_numT (b : Bool) (l : List Val) :
    strOrNullB (l.map (numTransform b)) = true := by
  simp only [strOrNullB, List.all_map, List.all_eq_true]
  intro v _
  cases b <;> exact aux_strAcc_shape _ v

/-! ## Step-level skip and shape lemmas -/

theorem aux_empty_pos (c : Col) (h : allNullB c.cells = true) :
    emptyStep c = ⟨.string, c.cells⟩ := by
  simp [emptyStep, h]

theorem aux_empty_neg (c : Col) (h : allNullB c.cells = false) :
    emptyStep c = c := by
  simp [emptyStep, h]

theorem aux_forced_pos (cfg : Cfg) (name : String) (c : Col)
    (h : forcedName cfg name = true) :
    forcedStep cfg name c = ⟨.string, c.cells.map toStrVal⟩ := by
  simp [forcedStep, h]

theorem aux_forced_neg (cfg : Cfg) (name : String) (c : Col)
    (h : forcedName cfg name = false) :
    forcedStep cfg name c = c := by
  simp [forcedStep, h]

theorem aux_num_skip (c : Col) (h : ¬ c.dtype = .object) :
    numericStep c = c := by
  simp [numericStep, h]

theorem aux_f2i_skip (c : Col) (h : ¬ c.dtype = .float64) :
    floatToIntStep c = c := by
  simp [floatToIntStep, h]

theorem aux_f2i_neg (c : Col) (h : c.cells.all intableCell = false) :
    floatToIntStep c = c := by
  simp [floatToIntStep, h]

theorem aux_f2i_pos (c : Col) (h : c.dtype = .float64)
    (h2 : c.cells.all intableCell = true) :
    floatToIntStep c = ⟨.int64, c.cells.map floatToIntCell⟩ := by
  simp [floatToIntStep, h, h2]

theorem aux_date_skip (name : String) (c : Col) (h : ¬ c.dtype = .object) :
    dateStep name c = c := by
  simp [dateStep, h]

theorem aux_cat_skip (cfg : Cfg) (c : Col) (h1 : ¬ c.dtype = .object)
    (h2 : ¬ c.dtype = .string) :
    catStep cfg c = c := by
  simp [catStep, h1, h2]

theorem aux_cat_neg (cfg : Cfg) (c : Col)
    (h : catConverts cfg c.cells = false) :
    catStep cfg c = c := by
  simp [catStep, h]

theorem aux_cat_pos (cfg : Cfg) (c : Col)
    (h1 : c.dtype = .object ∨ c.dtype = .string)
    (h2 : catConverts cfg c.cells = true) :
    catStep cfg c = ⟨.category, c.cells⟩ := by
  rcases h1 with h1 | h1 <;> simp [catStep, h1, h2]

theorem aux_cat_allNull (cfg : Cfg) (c : Col) (h : allNullB c.cells = true) :
    catStep cfg c = c := by
  apply aux_cat_neg
  simp [catConverts, catCriteria, aux_allNull_nunique c.cells h]

theorem aux_o2s_skip (c : Col) (h : ¬ c.dtype = .object) :
    objToStrStep c = c := by
  simp [objToStrStep, h]

theorem aux_o2s_pos (c : Col) (h : c.dtype = .object) :
    objToStrStep c = ⟨.string, c.cells.map toStrVal⟩ := by
  simp [objToStrStep, h]

/-! ## Length lemmas for the schema generator -/

theorem aux_natDigs_ne (f n : ℕ) : natDigs (f + 1) n ≠ [] := by
  simp only [natDigs]
  split <;> simp

theorem aux_natRender_pos (n : ℕ) : 0 < (natRender n).length := by
  have h := aux_natDigs_ne n n
  show 0 < (natDigs (n + 1) n).length
  cases hd : natDigs (n + 1) n with
  | nil => exact absurd hd h
  | cons a t => simp

theorem aux_toPyStr_len (v : Val) : (toPyStr v).length = 0 ↔ v = Val.str "" := by
  cases v with
  | null => decide
  | str s =>
      simp only [toPyStr, Val.str.injEq]
      constructor
      · intro h
        apply String.ext
        exact List.length_eq_zero.mp h
      · intro h; simp [h]
  | int n =>
      simp only [toPyStr, intRender]
      constructor
      · intro h
        rw [String.length_append] at h
        have := aux_natRender_pos n.natAbs
        omega
      · intro h; exact absurd h (by simp)
  | float q =>
      simp only [toPyStr, floatRender, String.length_append]
      constructor
      · intro h
        have := aux_natRender_pos (q.num.natAbs / q.den)
        have h1 : ("." : String).length = 1 := rfl
        omega
      · intro h; exact absurd h (by simp)
  | bool b =>
      cases b <;> decide
  | dt y m d sec =>
      simp only [toPyStr, dtRender, String.length_append]
      constructor
      · intro h
        have := aux_natRender_pos y
        have h1 : ("-" : String).length = 1 := rfl
        omega
      · intro h; exact absurd h (by simp)

theorem aux_foldr_max_zero (l : List ℕ) :
    l.foldr max 0 = 0 ↔ ∀ x ∈ l, x = 0 := by
  induction l with
  | nil => simp
  | cons a t ih => simp [Nat.max_eq_zero_iff, ih]

/-! ## Claim theorems: numeric step -/

/-- C1: the claim states that a failed numeric conversion restores the
column verbatim.  The code of `TypeDetector._convert_numeric_columns`
assigns the separator-stripped strings to the column before calling
`pd.to_numeric(errors="raise")`, so when parsing fails (here on `"abc"`)
the column keeps the mutated value `"1.5"` instead of the original
`"1,5"`: the conversion is not atomic. -/
theorem c1_numeric_mutation_on_failure :
    numericStep ⟨.object, [.str "1,5", .str "abc"]⟩ =
      ⟨.object, [.str "1.5", .str "abc"]⟩ ∧
    (⟨.object, [.str "1.5", .str "abc"]⟩ : Col) ≠
      ⟨.object, [.str "1,5", .str "abc"]⟩ := by
  constructor <;> decide

/-- C3 counterexample: a column whose every cell is `"1.500,75"` does not
parse to the decimal value 1500.75.  Both separators occur in every cell,
so the per-cell counts tie, `.` is chosen as the decimal separator, commas
are stripped, and the cell parses to 1.50075, rounded to 1.5. -/
theorem c3_counterexample :
    numericStep ⟨.object, [.str "1.500,75"]⟩ = ⟨.float64, [.float (Qmk 3 2)]⟩ ∧
    (Qmk 3 2).toRat ≠ (150075 : ℚ) / 100 := by
  constructor
  · decide
  · have h : Qmk 3 2 = ⟨3, 2⟩ := by decide
    rw [h]
    norm_num [Q.toRat]

/-! ## Claim theorems: date step -/

/-- C4: the date conversion accepts a candidate column only when the
parsed non-null count is at least half of the originally non-null count,
and whenever it does not accept, the column is exactly the original one —
in particular cells containing the sentinel `"0001"` are intact on the
rejected path (`_convert_date_columns` keeps an untouched copy and
restores it). -/
theorem c4_date_accept_or_restore (name : String) (cells : List Val) :
    ((dateStep name ⟨.object, cells⟩).dtype = .datetime →
      2 * countNN (cells.map dateConvCell) ≥ countNN cells) ∧
    ((dateStep name ⟨.object, cells⟩).dtype ≠ .datetime →
      dateStep name ⟨.object, cells⟩ = ⟨.object, cells⟩) := by
  by_cases hdl : dateLike name cells <;>
    by_cases hacc : 2 * countNN (cells.map dateConvCell) ≥ countNN cells <;>
      simp [dateStep, hdl, hacc]

/-- Witness for C4: a rejected candidate containing a `"0001"` sentinel
cell is returned with that cell (and all others) verbatim. -/
theorem c4_witness :
    dateStep "f" ⟨.object, [.str "0001-07-01", .str "x-y", .str "zz-zz"]⟩ =
      ⟨.object, [.str "0001-07-01", .str "x-y", .str "zz-zz"]⟩ :=
  (c4_date_accept_or_restore "f" [.str "0001-07-01", .str "x-y", .str "zz-zz"]).2
    (by decide)

/-- C5: the claim (and the repository's own test
`test_date_conversion_strips_time_information` together with
`steps/date.py`) requires time-of-day to be preserved and the column to be
declared `Timestamp`; the pipeline that runs
(`TypeDetector._convert_date_columns`) slices every value to its first 10
characters before parsing, so `"2024-01-15 10:30:00"` comes out as
midnight `2024-01-15 00:00:00` and no `Date`/`Timestamp` distinction is
ever made. -/
theorem c5_time_of_day_lost :
    runCol cfgT "ultimo_acceso"
        ⟨.object, [.str "2024-01-15 10:30:00", .str "2024-03-20 23:59:59"]⟩ =
      ⟨.datetime, [.dt 2024 1 15 0, .dt 2024 3 20 0]⟩ := by
  decide

/-! ## Claim theorems: categorical step -/

/-- C6: a text column is converted to categorical iff
`cardinality < cardinality_threshold`, `nunique ≤ unique_count_limit`,
`nunique > 0` and the distinct values are not of mixed kinds; a mixed
column (such as distinct values `100` and `"cien"`) is never converted,
regardless of cardinality. -/
theorem c6_categorical_iff (cfg : Cfg) (c : Col)
    (hd : c.dtype = .object ∨ c.dtype = .string) :
    ((catStep cfg c).dtype = .category ↔
      (Qlt (cardinalityOf c.cells) cfg.cardinality_threshold = true ∧
       nuniqueNN c.cells ≤ cfg.unique_count_limit ∧
       0 < nuniqueNN c.cells ∧
       hasMixedTypes c.cells = false)) ∧
    (hasMixedTypes c.cells = true → catStep cfg c = c) := by
  have hconv : catConverts cfg c.cells = true ↔
      (Qlt (cardinalityOf c.cells) cfg.cardinality_threshold = true ∧
       nuniqueNN c.cells ≤ cfg.unique_count_limit ∧
       0 < nuniqueNN c.cells ∧
       hasMixedTypes c.cells = false) := by
    simp [catConverts, catCriteria, Bool.and_eq_true, decide_eq_true_eq,
      Bool.not_eq_true', and_assoc]
  constructor
  · by_cases hcv : catConverts cfg c.cells = true
    · rw [aux_cat_pos cfg c hd hcv]
      constructor
      · intro _; exact hconv.mp hcv
      · intro _; rfl
    · have hf : catConverts cfg c.cells = false := by
        revert hcv; cases catConverts cfg c.cells <;> simp
      rw [aux_cat_neg cfg c hf]
      constructor
      · intro hx
        rcases hd with h | h <;> rw [h] at hx <;> exact absurd hx (by simp)
      · intro hx; exact absurd (hconv.mpr hx) hcv
  · intro hm
    apply aux_cat_neg
    simp [catConverts, hm]

/-- Witness for C6: with a 0.5 threshold, a mixed column of distinct
values `100` and `"cien"` (cardinality 1/3, inside every gate) is left
alone, while an all-`"a"` column is converted to categorical. -/
theorem c6_witness :
    catStep cfgW ⟨.string, [.int 100, .str "cien", .int 100, .str "cien",
      .int 100, .str "cien"]⟩ =
      ⟨.string, [.int 100, .str "cien", .int 100, .str "cien",
        .int 100, .str "cien"]⟩ ∧
    (catStep cfgW ⟨.string, [.str "a", .str "a", .str "a"]⟩).dtype =
      .category :=
  ⟨(c6_categorical_iff cfgW _ (Or.inr rfl)).2 (by decide),
   ((c6_categorical_iff cfgW _ (Or.inr rfl)).1).mpr (by decide)⟩

/-! ## Claim theorems: boolean step -/

/-- C7 counterexample: the column with the two distinct values `"si"` and
`"s"` — both members of `boolean_true_values` — is converted (to all-True),
although the claim says a pair that does not map to exactly one true-set
and one false-set member is left unconverted.
`_is_potential_boolean` only tests that the normalised values are a subset
of the union of the two sets. -/
theorem c7_counterexample :
    booleanStep cfgT ⟨.object, [.str "si", .str "s"]⟩ =
      ⟨.boolean, [.bool true, .bool true]⟩ := by
  decide

/-- C7 amended: a text column is converted by the boolean step iff it has
exactly two distinct non-null values and each of their trimmed, lowered
renderings belongs to `boolean_true_values ∪ boolean_false_values`; the two
values may come from the same set. -/
theorem c7_boolean_iff (cfg : Cfg) (c : Col)
    (hd : c.dtype = .object ∨ c.dtype = .string) :
    ((booleanStep cfg c).dtype = .boolean ↔
      (nuniqueNN c.cells = 2 ∧
       ∀ v ∈ (c.cells.filter (fun v => !isNull v)).dedup,
         (cfg.boolean_true_values ++ cfg.boolean_false_values).contains
           (strLower (strTrim (toPyStr v))) = true)) := by
  have hp : potentialBoolean cfg c.cells = true ↔
      (nuniqueNN c.cells = 2 ∧
       ∀ v ∈ (c.cells.filter (fun v => !isNull v)).dedup,
         (cfg.boolean_true_values ++ cfg.boolean_false_values).contains
           (strLower (strTrim (toPyStr v))) = true) := by
    simp [potentialBoolean, nuniqueNN, Bool.and_eq_true, List.all_eq_true,
      decide_eq_true_eq]
  by_cases hb : potentialBoolean cfg c.cells = true
  · have hs : booleanStep cfg c = ⟨.boolean, c.cells.map (boolMapCell cfg)⟩ := by
      rcases hd with h | h <;> simp [booleanStep, h, hb]
    rw [hs]
    constructor
    · intro _; exact hp.mp hb
    · intro _; rfl
  · have hf : potentialBoolean cfg c.cells = false := by
      revert hb; cases potentialBoolean cfg c.cells <;> simp
    have hs : booleanStep cfg c = c := by simp [booleanStep, hf]
    rw [hs]
    constructor
    · intro hx; rcases hd with h | h <;> rw [h] at hx <;> exact absurd hx (by simp)
    · intro hx; exact absurd (hp.mpr hx) hb

/-- Witness for C7: a genuine yes/no column is converted. -/
theorem c7_witness :
    (booleanStep cfgT ⟨.object, [.str "si", .str "no", .null]⟩).dtype =
      .boolean :=
  (c7_boolean_iff cfgT ⟨.object, [.str "si", .str "no", .null]⟩
    (Or.inl rfl)).mpr (by decide)

/-! ## Claim theorems: schema length -/

/-- C9 counterexample: an entirely-null input column comes out of the
pipeline as an all-NA string column, and `generate_schema_dict` reports
length 3 for it (the cells are stringified by `astype(str)`, so the null
placeholder `"nan"` is measured), not 0 — refuting `length == 0` iff the
column is entirely null. -/
theorem c9_counterexample :
    schemaLongitudes (runDetection cfgT [("a", ⟨.object, [.null]⟩)]) =
      [("a", 3)] ∧
    allNullB (runCol cfgT "a" ⟨.object, [.null]⟩).cells = true := by
  constructor <;> decide

/-- C9 amended: lengths are always ≥ 0, and for a non-empty column the
reported length is 0 iff every cell is the empty string; nulls are
stringified to a non-empty placeholder, so an entirely-null column reports
the placeholder's length, never 0. -/
theorem c9_longitud_amended (c : Col) (_h : c.cells ≠ []) :
    0 ≤ longitud c ∧ (longitud c = 0 ↔ ∀ v ∈ c.cells, v = Val.str "") := by
  refine ⟨Nat.zero_le _, ?_⟩
  unfold longitud
  rw [aux_foldr_max_zero]
  constructor
  · intro hz v hv
    exact (aux_toPyStr_len v).mp (hz _ (List.mem_map_of_mem _ hv))
  · intro hz x hx
    rcases List.mem_map.mp hx with ⟨v, hv, rfl⟩
    exact (aux_toPyStr_len v).mpr (hz v hv)

/-- Witness for C9: a non-empty column of empty strings reports length 0. -/
theorem c9_witness :
    longitud ⟨Dtype.string, [Val.str "", Val.str ""]⟩ = 0 :=
  (c9_longitud_amended ⟨Dtype.string, [Val.str "", Val.str ""]⟩
    (by decide)).2.mpr (by decide)

/-! ## Claim theorems: float-to-int step -/

theorem aux_f2i_cell (v : Val) (h : intableCell v = true) :
    valQnum (floatToIntCell v) = valQnum v ∧
    isNull (floatToIntCell v) = isNull v := by
  cases v with
  | float q =>
      rcases q with ⟨n, d⟩
      simp only [intableCell, decide_eq_true_eq] at h
      subst h
      exact ⟨rfl, rfl⟩
  | null => exact ⟨rfl, rfl⟩
  | str s => simp [intableCell] at h
  | int n => simp [intableCell] at h
  | bool b => simp [intableCell] at h
  | dt y m d sec => simp [intableCell] at h

/-- C10: a float64 column whose every cell is null or has zero fractional
part — including columns that were numeric from the loader and never went
through string parsing — is converted to the nullable integer dtype with
every numeric value and every null unchanged. -/
theorem c10_float_to_int (cells : List Val)
    (h : ∀ v ∈ cells, intableCell v = true) :
    floatToIntStep ⟨.float64, cells⟩ = ⟨.int64, cells.map floatToIntCell⟩ ∧
    ∀ v ∈ cells, valQnum (floatToIntCell v) = valQnum v ∧
      isNull (floatToIntCell v) = isNull v := by
  constructor
  · exact aux_f2i_pos _ rfl (List.all_eq_true.mpr h)
  · intro v hv
    exact aux_f2i_cell v (h v hv)

/-- Witness for C10: the column `[3.0, null]` becomes `Int64` `[3, null]`. -/
theorem c10_witness :
    floatToIntStep ⟨.float64, [.float (Q.ofInt 3), .null]⟩ =
      ⟨.int64, [.int 3, .null]⟩ :=
  (c10_float_to_int [.float (Q.ofInt 3), .null] (by decide)).1

/-! ## Claim theorems: idempotence counterexample -/

/-- C2 counterexample: an object column holding the Python ints 100 — the
`.str` accessor nulls every non-string cell, `pd.to_numeric` then returns
all-NaN, and the float-to-int step makes the column all-null `Int64`; the
second run's empty-column step retypes it to `string[pyarrow]`, so running
the pipeline twice is not the same as running it once. -/
theorem c2_counterexample :
    runDetection cfgT (runDetection cfgT [("a", ⟨.object, [.int 100]⟩)]) ≠
      runDetection cfgT [("a", ⟨.object, [.int 100]⟩)] := by
  decide

/-! ## Replicate lemmas for constant columns -/

theorem aux_filter_replicate_pos {α : Type} [DecidableEq α] (p : α → Bool)
    (a : α) (n : ℕ) (h : p a = true) :
    (List.replicate n a).filter p = List.replicate n a := by
  induction n with
  | zero => rfl
  | succ n ih => simp [List.replicate_succ, List.filter_cons, h, ih]

theorem aux_countP_replicate {α : Type} (p : α → Bool) (a : α) (n : ℕ) :
    (List.replicate n a).countP p = if p a then n else 0 := by
  induction n with
  | zero => simp
  | succ n ih =>
      simp only [List.replicate_succ, List.countP_cons, ih]
      split <;> simp_all

theorem aux_take_replicate {α : Type} (a : α) (k n : ℕ) :
    (List.replicate n a).take k = List.replicate (min k n) a := by
  induction n generalizing k with
  | zero => simp
  | succ n ih =>
      cases k with
      | zero => simp
      | succ k =>
          simp [List.replicate_succ, ih, Nat.succ_min_succ]

theorem aux_toNumericList_replicate (v : Val) (r : Option (Bool × Q)) (n : ℕ)
    (h : toNumericCell v = some r) :
    toNumericList (List.replicate n v) = some (List.replicate n r) := by
  induction n with
  | zero => rfl
  | succ n ih => simp [List.replicate_succ, toNumericList, h, ih]

theorem aux_sepComma_replicate (s : String) (n : ℕ)
    (h : hasSubstr s "," = hasSubstr s ".") :
    sepComma (List.replicate n (.str s)) = false := by
  simp only [sepComma,
    aux_filter_replicate_pos (fun v => !isNull v) (Val.str s) n rfl,
    List.map_replicate, toPyStr, aux_take_replicate, aux_countP_replicate, h]
  split <;> simp

theorem aux_numeric_const (s u : String) (q : Q) (n : ℕ)
    (hsep : hasSubstr s "," = hasSubstr s ".")
    (ht : numTransform false (.str s) = .str u)
    (hp : toNumericCell (.str u) = some (some (true, q))) :
    numericStep ⟨.object, List.replicate n (.str s)⟩ =
      ⟨.float64, List.replicate n (.float (round2Q q))⟩ := by
  have h2 : (List.replicate n (Val.str s)).map
      (numTransform (sepComma (List.replicate n (Val.str s)))) =
      List.replicate n (Val.str u) := by
    rw [aux_sepComma_replicate s n hsep, List.map_replicate, ht]
  have h3 : toNumericList (List.replicate n (Val.str u)) =
      some (List.replicate n (some (true, q))) :=
    aux_toNumericList_replicate _ _ n hp
  have hc : (!(List.replicate n (Val.str u)).isEmpty &&
      (List.replicate n (some (true, q))).all
        (fun o => o.elim false (fun r => !r.1))) = false := by
    cases n <;> simp [List.replicate_succ]
  simp only [numericStep, h2, h3, hc]
  simp [List.map_replicate]

/-- C3 amended: a column of `"1,500.75"` cells parses to the decimal value
1500.75, but a column of `"1.500,75"` cells parses to 1.5: every such cell
contains both separators, the per-cell counts of `,` and `.` tie, and the
tie makes `.` the decimal separator, so commas are stripped and the value
1.50075 is rounded to two decimals.  (`"1.500,75"` parses to 1500.75 only
in columns where strictly more sampled cells contain `,` than `.`.) -/
theorem c3_separator_amended (n : ℕ) :
    numericStep ⟨.object, List.replicate n (.str "1,500.75")⟩ =
      ⟨.float64, List.replicate n (.float (Qmk 6003 4))⟩ ∧
    numericStep ⟨.object, List.replicate n (.str "1.500,75")⟩ =
      ⟨.float64, List.replicate n (.float (Qmk 3 2))⟩ ∧
    (Qmk 6003 4).toRat = (150075 : ℚ) / 100 := by
  refine ⟨?_, ?_, ?_⟩
  · have h := aux_numeric_const "1,500.75" "1500.75" (Qmk 6003 4) n
      (by decide) (by decide) (by decide)
    rwa [show round2Q (Qmk 6003 4) = Qmk 6003 4 from by decide] at h
  · have h := aux_numeric_const "1.500,75" "1.50075" (Qmk 6003 4000) n
      (by decide) (by decide) (by decide)
    rwa [show round2Q (Qmk 6003 4000) = Qmk 3 2 from by decide] at h
  · rw [show Qmk 6003 4 = ⟨6003, 4⟩ from by decide]
    norm_num [Q.toRat]

/-! ## Claim theorems: forced text -/

/-- C8 counterexample: a column named `codigo` is pinned to text by the
forced-text step, yet with a 0.5 cardinality threshold the categorical
step later redeclares it `category` — the categorical step scans `string`
columns too, so the pin is not an exclusion. -/
theorem c8_counterexample :
    forcedName cfgW "codigo" = true ∧
    (runCol cfgW "codigo" ⟨.object, [.str "a", .str "a", .str "a"]⟩).dtype =
      .category := by
  constructor <;> decide

/-- C8 amended: a column whose name matches a `text_keywords` entry is
stringified by the forced-text step and then left untouched by the
numeric, float-to-int and date steps (they only scan `object`/`float64`
columns); its cells are never changed again, but the categorical step may
still redeclare the column `category` when it meets the cardinality
gate. -/
theorem aux_run_string_tail (cfg : Cfg) (name : String) (w : Col)
    (hw : w.dtype = .string) :
    objToStrStep (catStep cfg (dateStep name (floatToIntStep (numericStep w)))) =
      if catConverts cfg w.cells then (⟨.category, w.cells⟩ : Col) else w := by
  rw [aux_num_skip w (by rw [hw]; simp), aux_f2i_skip w (by rw [hw]; simp),
    aux_date_skip name w (by rw [hw]; simp)]
  by_cases hcv : catConverts cfg w.cells = true
  · rw [aux_cat_pos cfg w (Or.inr hw) hcv, aux_o2s_skip _ (by simp), if_pos hcv]
  · have hcf : catConverts cfg w.cells = false := by
      revert hcv; cases catConverts cfg w.cells <;> simp
    rw [aux_cat_neg cfg w hcf, aux_o2s_skip w (by rw [hw]; simp), if_neg hcv]

theorem c8_forced_text (cfg : Cfg) (name : String) (c : Col)
    (h : forcedName cfg name = true) :
    runCol cfg name c = forcedStep cfg name (emptyStep c) ∨
    runCol cfg name c =
      ⟨.category, (forcedStep cfg name (emptyStep c)).cells⟩ := by
  have hf : forcedStep cfg name (emptyStep c) =
      ⟨.string, (emptyStep c).cells.map toStrVal⟩ :=
    aux_forced_pos cfg name (emptyStep c) h
  unfold runCol
  rw [hf, aux_run_string_tail cfg name _ rfl]
  by_cases hcv :
      catConverts cfg ((⟨.string, (emptyStep c).cells.map toStrVal⟩ : Col).cells) = true
  · right
    rw [if_pos hcv]
  · left
    rw [if_neg hcv]

/-- Witness for C8: the test fixture's `codigo_producto` column of ints is
stringified and stays exactly the forced-text output through the whole
run. -/
theorem c8_witness :
    runCol cfgT "codigo_producto" ⟨.object, [.int 100, .int 200, .int 300]⟩ =
      forcedStep cfgT "codigo_producto"
        (emptyStep ⟨.object, [.int 100, .int 200, .int 300]⟩) :=
  (c8_forced_text cfgT "codigo_producto" ⟨.object, [.int 100, .int 200, .int 300]⟩
    (by decide)).resolve_right (by decide)

/-! ## Shape lemmas for idempotence -/

theorem aux_num_object_cases (c : Col) (h : c.dtype = .object) :
    (numericStep c).dtype = .int64np ∨ (numericStep c).dtype = .float64 ∨
    ((numericStep c).dtype = .object ∧
      (numericStep c).cells = c.cells.map (numTransform (sepComma c.cells))) := by
  rcases hm : toNumericList (c.cells.map (numTransform (sepComma c.cells)))
    with _ | parsed
  · right; right
    constructor <;> simp [numericStep, h, hm]
  · cases hb : (!(c.cells.map (numTransform (sepComma c.cells))).isEmpty &&
        parsed.all (fun o => o.elim false (fun r => !r.1))) with
    | false => right; left; simp [numericStep, h, hm, hb]
    | true => left; simp [numericStep, h, hm, hb]

theorem aux_date_object_cases (name : String) (c : Col) (h : c.dtype = .object) :
    dateStep name c = c ∨ (dateStep name c).dtype = .datetime := by
  by_cases hdl : dateLike name c.cells
  · by_cases hacc : 2 * countNN (c.cells.map dateConvCell) ≥ countNN c.cells
    · right; simp [dateStep, h, hdl, hacc]
    · left; simp [dateStep, h, hdl, hacc]
  · left; simp [dateStep, h, hdl]

theorem aux_f2i_cases (c : Col) (h : c.dtype = .float64) :
    (floatToIntStep c).dtype = .int64 ∨
    (floatToIntStep c = c ∧ c.cells.all intableCell = false) := by
  cases ha : c.cells.all intableCell with
  | false => exact Or.inr ⟨aux_f2i_neg c ha, rfl⟩
  | true => left; rw [aux_f2i_pos c h ha]

/-! ## Invariant constructors -/

theorem aux_inv_string (cfg : Cfg) (name : String) (cells : List Val)
    (h1 : forcedName cfg name = true → strOrNullB cells = true)
    (h2 : catConverts cfg cells = false) :
    PipeInv cfg name ⟨.string, cells⟩ := by
  refine ⟨by simp, ?_, fun _ _ => h2, by simp⟩
  intro hfn
  exact Or.inl ⟨rfl, h1 hfn, h2⟩

theorem aux_inv_category (cfg : Cfg) (name : String) (cells : List Val)
    (h1 : forcedName cfg name = true → strOrNullB cells = true)
    (h2 : catConverts cfg cells = true) :
    PipeInv cfg name ⟨.category, cells⟩ := by
  refine ⟨by simp, ?_, by simp, by simp⟩
  intro hfn
  exact Or.inr ⟨rfl, h1 hfn, h2⟩

theorem aux_inv_other (cfg : Cfg) (name : String) (c : Col)
    (hobj : c.dtype ≠ .object) (hfn : forcedName cfg name = false)
    (hstr : c.dtype ≠ .string) (hflt : c.dtype ≠ .float64) :
    PipeInv cfg name c :=
  ⟨hobj, fun h => absurd h (by simp [hfn]), fun _ hs => absurd hs hstr,
   fun hf => absurd hf hflt⟩

theorem aux_inv_float (cfg : Cfg) (name : String) (c : Col)
    (h : c.dtype = .float64) (hfn : forcedName cfg name = false)
    (hni : c.cells.all intableCell = false) :
    PipeInv cfg name c :=
  ⟨by rw [h]; simp, fun hx => absurd hx (by simp [hfn]),
   fun _ hs => by rw [h] at hs; exact Dtype.noConfusion hs, fun _ => hni⟩

/-! ## Every pipeline output satisfies the invariant -/

theorem aux_inv_runCol (cfg : Cfg) (name : String) (c : Col) :
    PipeInv cfg name (runCol cfg name c) := by
  unfold runCol
  by_cases hfn : forcedName cfg name = true
  · rw [aux_forced_pos cfg name (emptyStep c) hfn,
      aux_run_string_tail cfg name _ rfl]
    by_cases hcv : catConverts cfg
        ((⟨.string, (emptyStep c).cells.map toStrVal⟩ : Col).cells) = true
    · rw [if_pos hcv]
      exact aux_inv_category cfg name _
        (fun _ => aux_strOrNull_map_toStrVal _) hcv
    · rw [if_neg hcv]
      have hcf : catConverts cfg ((emptyStep c).cells.map toStrVal) = false := by
        revert hcv; cases catConverts cfg ((emptyStep c).cells.map toStrVal) <;> simp
      exact aux_inv_string cfg name _
        (fun _ => aux_strOrNull_map_toStrVal _) hcf
  · have hfn0 : forcedName cfg name = false := by
      revert hfn; cases forcedName cfg name <;> simp
    rw [aux_forced_neg cfg name (emptyStep c) hfn0]
    generalize emptyStep c = e
    by_cases heo : e.dtype = .object
    · rcases aux_num_object_cases e heo with hn | hn | ⟨hn, hcells⟩
      · rw [aux_f2i_skip _ (by rw [hn]; simp),
          aux_date_skip _ _ (by rw [hn]; simp),
          aux_cat_skip _ _ (by rw [hn]; simp) (by rw [hn]; simp),
          aux_o2s_skip _ (by rw [hn]; simp)]
        exact aux_inv_other cfg name _ (by rw [hn]; simp) hfn0
          (by rw [hn]; simp) (by rw [hn]; simp)
      · rcases aux_f2i_cases (numericStep e) hn with hg | ⟨hg, hni⟩
        · rw [aux_date_skip _ _ (by rw [hg]; simp),
            aux_cat_skip _ _ (by rw [hg]; simp) (by rw [hg]; simp),
            aux_o2s_skip _ (by rw [hg]; simp)]
          exact aux_inv_other cfg name _ (by rw [hg]; simp) hfn0
            (by rw [hg]; simp) (by rw [hg]; simp)
        · rw [hg, aux_date_skip _ _ (by rw [hn]; simp),
            aux_cat_skip _ _ (by rw [hn]; simp) (by rw [hn]; simp),
            aux_o2s_skip _ (by rw [hn]; simp)]
          exact aux_inv_float cfg name _ hn hfn0 hni
      · rw [aux_f2i_skip _ (by rw [hn]; simp)]
        rcases aux_date_object_cases name (numericStep e) hn with hd | hd
        · rw [hd]
          have hsn : strOrNullB (numericStep e).cells = true := by
            rw [hcells]; exact aux_strOrNull_numT _ _
          by_cases hcv : catConverts cfg (numericStep e).cells = true
          · rw [aux_cat_pos cfg _ (Or.inl hn) hcv, aux_o2s_skip _ (by simp)]
            exact aux_inv_category cfg name _ (fun hx => absurd hx hfn) hcv
          · have hcf : catConverts cfg (numericStep e).cells = false := by
              revert hcv; cases catConverts cfg (numericStep e).cells <;> simp
            rw [aux_cat_neg cfg _ hcf, aux_o2s_pos _ hn,
              aux_map_toStrVal_id _ hsn]
            exact aux_inv_string cfg name _ (fun hx => absurd hx hfn) hcf
        · rw [aux_cat_skip _ _ (by rw [hd]; simp) (by rw [hd]; simp),
            aux_o2s_skip _ (by rw [hd]; simp)]
          exact aux_inv_other cfg name _ (by rw [hd]; simp) hfn0
            (by rw [hd]; simp) (by rw [hd]; simp)
    · rw [aux_num_skip e heo]
      by_cases hef : e.dtype = .float64
      · rcases aux_f2i_cases e hef with hg | ⟨hg, hni⟩
        · rw [aux_date_skip _ _ (by rw [hg]; simp),
            aux_cat_skip _ _ (by rw [hg]; simp) (by rw [hg]; simp),
            aux_o2s_skip _ (by rw [hg]; simp)]
          exact aux_inv_other cfg name _ (by rw [hg]; simp) hfn0
            (by rw [hg]; simp) (by rw [hg]; simp)
        · rw [hg, aux_date_skip _ _ (by rw [hef]; simp),
            aux_cat_skip _ _ (by rw [hef]; simp) (by rw [hef]; simp),
            aux_o2s_skip _ (by rw [hef]; simp)]
          exact aux_inv_float cfg name e hef hfn0 hni
      · rw [aux_f2i_skip e hef, aux_date_skip name e heo]
        by_cases hes : e.dtype = .string
        · by_cases hcv : catConverts cfg e.cells = true
          · rw [aux_cat_pos cfg e (Or.inr hes) hcv, aux_o2s_skip _ (by simp)]
            exact aux_inv_category cfg name _ (fun hx => absurd hx hfn) hcv
          · have hcf : catConverts cfg e.cells = false := by
              revert hcv; cases catConverts cfg e.cells <;> simp
            rw [aux_cat_neg cfg e hcf, aux_o2s_skip e heo]
            obtain ⟨dt, cs⟩ := e
            have hdt : dt = Dtype.string := hes
            subst hdt
            exact aux_inv_string cfg name cs (fun hx => absurd hx hfn) hcf
        · rw [aux_cat_skip cfg e heo hes, aux_o2s_skip e heo]
          exact aux_inv_other cfg name e heo hfn0 hes hef

/-! ## A column satisfying the invariant is a fixed point up to retyping -/

theorem aux_fix_of_inv (cfg : Cfg) (name : String) (d : Col)
    (hinv : PipeInv cfg name d) :
    runCol cfg name d = retypeAllNull d := by
  obtain ⟨hobj, hforced, hunforced, hflt⟩ := hinv
  by_cases hall : allNullB d.cells = true
  · rw [show retypeAllNull d = ⟨.string, d.cells⟩ from by
      simp [retypeAllNull, hall]]
    unfold runCol
    rw [aux_empty_pos d hall]
    have hid : d.cells.map toStrVal = d.cells :=
      aux_map_toStrVal_id _ (aux_allNull_strOrNull _ hall)
    have hcc : catConverts cfg d.cells = false := by
      simp [catConverts, catCriteria, aux_allNull_nunique _ hall]
    by_cases hfn : forcedName cfg name = true
    · rw [aux_forced_pos cfg name _ hfn]
      dsimp only
      rw [hid, aux_run_string_tail cfg name _ rfl, if_neg (by simp [hcc])]
    · have hfn0 : forcedName cfg name = false := by
        revert hfn; cases forcedName cfg name <;> simp
      rw [aux_forced_neg cfg name _ hfn0,
        aux_run_string_tail cfg name _ rfl, if_neg (by simp [hcc])]
  · rw [show retypeAllNull d = d from by simp [retypeAllNull, hall]]
    unfold runCol
    rw [aux_empty_neg d (by revert hall; cases allNullB d.cells <;> simp)]
    by_cases hfn : forcedName cfg name = true
    · rcases hforced hfn with ⟨hds, hsn, hcc⟩ | ⟨hds, hsn, hcc⟩
      · rw [aux_forced_pos cfg name d hfn, aux_map_toStrVal_id _ hsn,
          aux_run_string_tail cfg name _ rfl, if_neg (by simp [hcc])]
        obtain ⟨dt, cs⟩ := d
        have hdt : dt = Dtype.string := hds
        subst hdt
        rfl
      · rw [aux_forced_pos cfg name d hfn, aux_map_toStrVal_id _ hsn,
          aux_run_string_tail cfg name _ rfl, if_pos (by simp [hcc])]
        obtain ⟨dt, cs⟩ := d
        have hdt : dt = Dtype.category := hds
        subst hdt
        rfl
    · have hfn0 : forcedName cfg name = false := by
        revert hfn; cases forcedName cfg name <;> simp
      rw [aux_forced_neg cfg name d hfn0, aux_num_skip d hobj]
      by_cases hf : d.dtype = .float64
      · rw [aux_f2i_neg d (hflt hf), aux_date_skip name d hobj,
          aux_cat_skip cfg d hobj (by rw [hf]; simp), aux_o2s_skip d hobj]
      · rw [aux_f2i_skip d hf, aux_date_skip name d hobj]
        by_cases hs : d.dtype = .string
        · rw [aux_cat_neg cfg d (hunforced hfn0 hs), aux_o2s_skip d hobj]
        · rw [aux_cat_skip cfg d hobj hs, aux_o2s_skip d hobj]

theorem aux_runCol_idem (cfg : Cfg) (name : String) (c : Col) :
    runCol cfg name (runCol cfg name c) = retypeAllNull (runCol cfg name c) :=
  aux_fix_of_inv cfg name _ (aux_inv_runCol cfg name c)

/-- C2 amended: rerunning the full pipeline on its own output preserves
column names, order and every cell value, and preserves every declared
type except that a column the first run left entirely null (necessarily
with a non-string dtype for the exception to be visible) is redeclared
`string` by the second run's empty-column step: the second run equals the
first composed with `retypeAllNull`, which keeps cells unchanged and
changes a dtype only on all-null columns, to `string`. -/
theorem c2_pipeline_idem_amended (cfg : Cfg) (t : List (String × Col)) :
    runDetection cfg (runDetection cfg t) =
      (runDetection cfg t).map (fun p => (p.1, retypeAllNull p.2)) ∧
    ∀ d : Col, (retypeAllNull d).cells = d.cells ∧
      ((retypeAllNull d).dtype = d.dtype ∨
        (allNullB d.cells = true ∧ (retypeAllNull d).dtype = .string)) := by
  constructor
  · simp only [runDetection, List.map_map, Function.comp]
    refine List.map_congr_left fun p _ => ?_
    dsimp only [Function.comp]
    rw [aux_runCol_idem]
  · intro d
    by_cases h : allNullB d.cells = true
    · simp [retypeAllNull, h]
    · simp [retypeAllNull, h]
